import Mathlib

/-!
Shallow embedding of two fragments of the repository:
  * `test/distributed/fsdp/test_fsdp_hybrid_shard.py` — a distributed-training
    test of FSDP hybrid sharding, with two monkey-patching context managers;
  * `torch/onnx/_internal/fx/exporter.py` — a thin ONNX export orchestration.

Python state that the test file mutates (the attributes `dist.all_reduce`,
`dist._reduce_scatter_base` and the module global
`_CURRENT_FULL_PRECISION_PARAM_DTYPE`) is modelled by explicit state passing;
Python exceptions are modelled with `Except` / `Option` error components.
-/

namespace FsdpHybridShard

/-- The mutable state touched by the two context managers of
`test_fsdp_hybrid_shard.py`: the two collective entry points of the
`torch.distributed` module (function values, modelled by an abstract type `F`)
and the test module's global `_CURRENT_FULL_PRECISION_PARAM_DTYPE`
(a dtype of abstract type `D`, or Python `None`, modelled by `Option D`). -/
structure DistState (F D : Type) where
  all_reduce : F
  reduce_scatter_base : F
  currentFullPrecisionParamDtype : Option D

/-- A with-block body: it may read and mutate the state and may raise an
exception (`some e`) or return normally (`none`), exactly as a Python block
inside a `with` statement can. -/
def PatchBody (F D E : Type) : Type := DistState F D → Option E × DistState F D

/-- Embedding of `patch_allreduce` (test file, lines 66-77): save
`dist.all_reduce`, rebind it to `new_allreduce`, run the body, and in the
`finally` clause rebind `dist.all_reduce` to the saved function — whether the
body returned normally or raised.  The exception (if any) keeps propagating. -/
def patch_allreduce {F D E : Type} (new_allreduce : F)
    (body : PatchBody F D E) (s : DistState F D) : Option E × DistState F D :=
  let orig_ar := s.all_reduce
  let res := body { s with all_reduce := new_allreduce }
  (res.1, { res.2 with all_reduce := orig_ar })

/-- Embedding of `patch_reduce_scatter` (test file, lines 50-64): save
`dist._reduce_scatter_base`, rebind it to `new_reduce_scatter`, set the module
global `_CURRENT_FULL_PRECISION_PARAM_DTYPE` to the given dtype, run the body,
and in the `finally` clause rebind `dist._reduce_scatter_base` to the saved
function and set the global to `None` (not to its previous value). -/
def patch_reduce_scatter {F D E : Type} (new_reduce_scatter : F)
    (full_precision_param_dtype : D)
    (body : PatchBody F D E) (s : DistState F D) : Option E × DistState F D :=
  let orig_reduce_scatter := s.reduce_scatter_base
  let res := body { s with
    reduce_scatter_base := new_reduce_scatter,
    currentFullPrecisionParamDtype := some full_precision_param_dtype }
  (res.1, { res.2 with
    reduce_scatter_base := orig_reduce_scatter,
    currentFullPrecisionParamDtype := none })

/-- Python errors that the embedded fragments can raise. -/
inductive PyError where
  | nameError (n : String)
  | assertionError
deriving DecidableEq, Repr

/-- The names bound at module level in `test_fsdp_hybrid_shard.py`, in textual
order: the `import`/`from ... import` statements of lines 3-37 (an
`import X as Y` binds only `Y`, so line 14 binds `FSDP` and not
`FullyShardedDataParallel`), then the two context managers and the test class
defined by the module itself. -/
def moduleBindings : List String :=
  ["deepcopy", "functools", "sys", "namedtuple", "suppress", "contextlib",
   "torch", "dist", "nn",
   "FlatParameter", "FSDP", "ShardingStrategy", "CPUOffload",
   "always_wrap_policy", "transformer_auto_wrap_policy",
   "TransformerDecoderLayer", "TransformerEncoderLayer",
   "skip_if_lt_x_gpu",
   "CUDAInitMode", "FSDPInitMode", "FSDPTest", "NestedWrappedModule",
   "TransformerWithSharedParams", "_assert_module_states",
   "TEST_WITH_DEV_DBG_ASAN", "instantiate_parametrized_tests", "parametrize",
   "run_tests",
   "_rank_not_in_group",
   "patch_reduce_scatter", "patch_allreduce", "TestFSDPHybridShard"]

/-- The Python builtins the test body could fall back to (a sufficient subset:
what matters is which names resolve, and `FullyShardedDataParallel` is not a
builtin). -/
def pyBuiltins : List String :=
  ["print", "range", "isinstance", "len", "super", "list", "tuple", "set"]

/-- Python name resolution inside a method body: a name resolves if it is a
local, a module-level binding, or a builtin; otherwise evaluating it raises
`NameError`. -/
def resolveName (localNames : List String) (n : String) : Except PyError Unit :=
  if localNames.contains n || moduleBindings.contains n || pyBuiltins.contains n
  then Except.ok () else Except.error (PyError.nameError n)

/-- Embedding of the body of `test_fsdp_hybrid_shard_basic_setup` (lines
92-117), at the granularity of name resolution: each free name is resolved in
evaluation order, locals are bound as assignments execute, and the framework
calls of the setup (`torch.cuda.current_device()`,
`TransformerWithSharedParams.init`) are assumed to succeed, as the test's GPU
precondition guarantees.  The returned list records which assertion methods
run; the do-chain aborts at the first `NameError`. -/
def testFsdpHybridShardBasicSetup : Except PyError (List String) := do
  let locals0 : List String := ["self"]
  -- lines 92-95: auto_wrap_policy = functools.partial(transformer_auto_wrap_policy, ...)
  let _ ← resolveName locals0 "functools"
  let _ ← resolveName locals0 "transformer_auto_wrap_policy"
  let _ ← resolveName locals0 "TransformerEncoderLayer"
  let _ ← resolveName locals0 "TransformerDecoderLayer"
  let locals1 := "auto_wrap_policy" :: locals0
  -- lines 96-100: fsdp_kwargs = {...}
  let _ ← resolveName locals1 "auto_wrap_policy"
  let _ ← resolveName locals1 "torch"
  let _ ← resolveName locals1 "ShardingStrategy"
  let locals2 := "fsdp_kwargs" :: locals1
  -- lines 101-106: fsdp_model = TransformerWithSharedParams.init(...)
  let _ ← resolveName locals2 "TransformerWithSharedParams"
  let _ ← resolveName locals2 "self"
  let _ ← resolveName locals2 "FSDPInitMode"
  let _ ← resolveName locals2 "CUDAInitMode"
  let _ ← resolveName locals2 "fsdp_kwargs"
  let locals3 := "fsdp_model" :: locals2
  -- line 108: for fsdp_module in FullyShardedDataParallel.fsdp_modules(fsdp_model):
  let _ ← resolveName locals3 "FullyShardedDataParallel"
  -- only past this point would the assertions of lines 109, 115 and 117 run
  pure ["assertEqual", "assertFalse", "assertTrue"]

end FsdpHybridShard

namespace HybridTopology

/-- Modelled from the spec: the construction of the inter-node process group
`_inter_node_pg` is owned by the host framework's hybrid-sharding
implementation and is not part of this excerpt.  Per the spec, the N workers
are arranged in `numNodes` nodes of `nodeSize` ranks each (global rank
`k * nodeSize + j` is the rank at position `j` of node `k`), and the
inter-node group observed at rank `r` contains exactly the workers designated
as `r`'s peers: one rank per node, each at `r`'s position within its node. -/
def interNodeRanks (numNodes nodeSize r : Nat) : List Nat :=
  (List.range numNodes).map fun k => k * nodeSize + r % nodeSize

/-- Modelled from the spec: rank `q` is designated as a peer of rank `r` when
`q` is a valid rank of the N = `numNodes * nodeSize` workers sitting at the
same position within its node as `r`. -/
def isInterNodePeer (numNodes nodeSize r q : Nat) : Prop :=
  q < numNodes * nodeSize ∧ q % nodeSize = r % nodeSize

/-- Modelled from the test's use of `_rank_not_in_group(rank, group)` (line 37,
lines 115-117): it reports that `rank` is not a member of the group. -/
def rankNotInGroup (r : Nat) (pg : List Nat) : Bool :=
  !(pg.contains r)

end HybridTopology

namespace FsdpWrap

/-- Modelled from the spec: the sharding strategies of the data-parallel
wrapper (the test selects `ShardingStrategy.HYBRID_SHARD`, line 99). -/
inductive ShardingStrategy where
  | FULL_SHARD
  | SHARD_GRAD_OP
  | NO_SHARD
  | HYBRID_SHARD
  | HYBRID_SHARD_ZERO2
deriving DecidableEq, Repr

/-- Modelled from the spec: a model to be wrapped is a tree of submodules,
each carrying the name of its layer class (against which the transformer
auto-wrap policy matches). -/
inductive ModuleTree where
  | mk (cls : String) (children : List ModuleTree)

/-- Modelled from the spec: the result of wrapping — submodules left plain,
and FSDP units each carrying the `sharding_strategy` they were created with. -/
inductive WrappedModule where
  | plain (cls : String) (children : List WrappedModule)
  | fsdp (sharding_strategy : ShardingStrategy) (inner : WrappedModule)

/-- Modelled from the spec: the auto-wrap recursion of the data-parallel
wrapper (its implementation lives in the host framework, outside this
excerpt).  Every submodule is processed recursively with the same
`fsdp_kwargs`; a submodule whose layer class the policy matches becomes a
nested FSDP unit carrying the kwargs' `sharding_strategy`. -/
def wrapSubmodules (policy : String → Bool) (st : ShardingStrategy) :
    ModuleTree → WrappedModule
  | .mk cls children =>
    let ws := children.attach.map fun c => wrapSubmodules policy st c.1
    if policy cls then .fsdp st (.plain cls ws) else .plain cls ws
termination_by t => sizeOf t
decreasing_by
  simp only [ModuleTree.mk.sizeOf_spec]
  have := List.sizeOf_lt_of_mem c.2
  omega

/-- Modelled from the spec: the top-level `FSDP(model, **fsdp_kwargs)` call of
the test (lines 101-106 via `TransformerWithSharedParams.init` with
`FSDPInitMode.RECURSIVE`): submodules are auto-wrapped recursively, then the
root itself is wrapped with the same `sharding_strategy`. -/
def fsdpWrap (policy : String → Bool) (st : ShardingStrategy) :
    ModuleTree → WrappedModule
  | .mk cls children =>
    .fsdp st (.plain cls (children.attach.map fun c => wrapSubmodules policy st c.1))

/-- Modelled from the test's `FSDP.fsdp_modules` traversal (line 108): the
`sharding_strategy` attributes of all nested FSDP units of a wrapped model. -/
def fsdpStrategies : WrappedModule → List ShardingStrategy
  | .plain _ cs => (cs.attach.map fun c => fsdpStrategies c.1).flatten
  | .fsdp st inner => st :: fsdpStrategies inner
termination_by w => sizeOf w
decreasing_by
  all_goals simp only [WrappedModule.plain.sizeOf_spec, WrappedModule.fsdp.sizeOf_spec]
  all_goals first
  | (have hlt := List.sizeOf_lt_of_mem c.2; omega)
  | omega

end FsdpWrap

namespace OnnxExporter

/-!
Embedding of `torch/onnx/_internal/fx/exporter.py`.  The exporter is a thin
orchestration over framework-provided passes (tracing, `Decompose`,
`ShapeInferenceWithFakeTensor`, `export_fx_to_onnxscript`, ModelProto
conversion, serialization); those passes live outside this excerpt and are
modelled as the fields of a `Framework` record, each returning `Except E _`
since any of them may raise.  Python argument tuples are `List (Option V)`
(`none` is Python `None`); keyword dictionaries are association lists.
-/

/-- The export options assembled by `_export` (lines 32-33): the source builds
an `options.ExportOptions()` and `update`s it with the four keyword arguments
that both call sites pass, so the resulting options carry exactly these
fields. -/
structure ExportOptions (DT : Type) where
  opset_version : Nat
  use_binary_format : Bool
  op_level_debug : Bool
  decomposition_table : DT

/-- The value returned by `_export` (lines 60-64): either the bytes of
`ModelProto.SerializeToString` or the in-memory `onnx.ModelProto`. -/
inductive ExportResult (M B : Type) where
  | binary (b : B)
  | proto (m : M)

/-- A Python pytree over leaf values `V`: a leaf, or a registered container of
subtrees. -/
inductive PyTree (V : Type) where
  | leaf (v : V)
  | node (children : List (PyTree V))

/-- `torch.utils._pytree.tree_flatten`: the list of leaves in left-to-right
order, paired with the tree structure (leaves erased). -/
def tree_flatten {V : Type} : PyTree V → List V × PyTree Unit
  | .leaf v => ([v], .leaf ())
  | .node cs =>
    let rs := cs.attach.map fun c => tree_flatten c.1
    ((rs.map Prod.fst).flatten, .node (rs.map Prod.snd))
termination_by t => sizeOf t
decreasing_by
  simp only [PyTree.node.sizeOf_spec]
  have := List.sizeOf_lt_of_mem c.2
  omega

/-- The leaves of a pytree in left-to-right order (used to state what
`tree_flatten` keeps of a tree). -/
def treeLeaves {V : Type} : PyTree V → List V
  | .leaf v => [v]
  | .node cs => (cs.attach.map fun c => treeLeaves c.1).flatten
termination_by t => sizeOf t
decreasing_by
  simp only [PyTree.node.sizeOf_spec]
  have := List.sizeOf_lt_of_mem c.2
  omega

/-- The `fn` argument of the entry points: a `torch.nn.Module` (called through
its `forward`) or a plain callable, taking positional arguments and keyword
arguments and returning a pytree of values. -/
inductive TraceTarget (V : Type) where
  | module (forward : List (Option V) → List (String × Option V) → PyTree V)
  | callable (f : List (Option V) → List (String × Option V) → PyTree V)

/-- Line 130: `fn_call = fn.forward if isinstance(fn, torch.nn.Module) else fn`. -/
def fn_call {V : Type} :
    TraceTarget V → (List (Option V) → List (String × Option V) → PyTree V)
  | .module forward => forward
  | .callable f => f

/-- The `wrapper`/`inner` closure of
`export_after_normalizing_args_and_kwargs` (lines 129-137):
`result, _ = _pytree.tree_flatten(fn_call(*args, **kwargs)); return result`. -/
def wrapper {V : Type} (fn : TraceTarget V) :
    List (Option V) → List (String × Option V) → List V :=
  fun args kwargs => (tree_flatten (fn_call fn args kwargs)).1

/-- The framework-provided machinery the exporter sequences.  Every
non-trivial step delegates to the host framework, so each is an abstract
field here; all may raise (`Except.error`):
* `dynamoExport_trace` — `frontend.DynamoExport(tracing_mode="real",
  aten_graph=True).trace(fn, *args)` (line 80-81);
* `unpackKwargs_trace` —
  `frontend.FxFrontendUnpackKwargs(frontend.DynamoOptimize(dynamic=False))
  .trace(wrapped_fn, *args, **kwargs)`, returning the captured graph and the
  bound positional arguments (lines 146-149);
* `decompose_run` — `passes.Decompose(module, table).run(*args)` (lines 38-40);
* `shapeInferenceWithFakeTensor_run` —
  `passes.ShapeInferenceWithFakeTensor(module).run(*args)` (lines 44-46);
* `export_fx_to_onnxscript` — `passes.export_fx_to_onnxscript(module,
  export_options)` (lines 53-56);
* `to_model_proto` — `onnxscript_graph.to_model_proto(opset_version)` (line 58);
* `serializeToString` — `onnx_model.SerializeToString()` (line 62);
* `onnx_friendly_decomposition_table` —
  `function_dispatcher._ONNX_FRIENDLY_DECOMPOSITION_TABLE` (lines 90, 157). -/
structure Framework (V G OG M DT B E : Type) where
  dynamoExport_trace : TraceTarget V → List (Option V) → Except E G
  unpackKwargs_trace : (List (Option V) → List (String × Option V) → List V) →
      List (Option V) → List (String × Option V) → Except E (G × List (Option V))
  decompose_run : G → DT → List (Option V) → Except E G
  shapeInferenceWithFakeTensor_run : G → List (Option V) → Except E G
  export_fx_to_onnxscript : G → ExportOptions DT → Except E OG
  to_model_proto : OG → Nat → Except E M
  serializeToString : M → B
  onnx_friendly_decomposition_table : DT

/-- Embedding of `_export` (lines 27-64): run `Decompose` with the options'
decomposition table and the args, run `ShapeInferenceWithFakeTensor` on its
result with the args, run `export_fx_to_onnxscript`, convert to a ModelProto
at the options' opset version, and return either its serialized bytes or the
ModelProto itself according to `use_binary_format`.  (The source assembles
`opts` from `**kwargs` via `ExportOptions().update`; both call sites pass all
four fields, which `opts` carries here directly.) -/
def _export {V G OG M DT B E : Type} (fw : Framework V G OG M DT B E)
    (module : G) (args : List (Option V)) (opts : ExportOptions DT) :
    Except E (ExportResult M B) := do
  let decomposed_module ← fw.decompose_run module opts.decomposition_table args
  let decomposed_module ← fw.shapeInferenceWithFakeTensor_run decomposed_module args
  let onnxscript_graph ← fw.export_fx_to_onnxscript decomposed_module opts
  let onnx_model ← fw.to_model_proto onnxscript_graph opts.opset_version
  if opts.use_binary_format then
    return ExportResult.binary (fw.serializeToString onnx_model)
  return ExportResult.proto onnx_model

/-- Embedding of `export` (lines 68-93; `export` is a Lean keyword, hence the
prime): trace `fn` with the Dynamo frontend, then `_export` the graph with
the ONNX-friendly decomposition table and the three options. -/
def export' {V G OG M DT B E : Type} (fw : Framework V G OG M DT B E)
    (fn : TraceTarget V) (args : List (Option V))
    (use_binary_format : Bool) (opset_version : Nat) (op_level_debug : Bool) :
    Except E (ExportResult M B) := do
  let graph_module ← fw.dynamoExport_trace fn args
  _export fw graph_module args
    { opset_version := opset_version,
      use_binary_format := use_binary_format,
      op_level_debug := op_level_debug,
      decomposition_table := fw.onnx_friendly_decomposition_table }

/-- Embedding of `export_after_normalizing_args_and_kwargs` (lines 96-160):
trace `wrapper fn` with the kwarg-unpacking frontend, obtaining the captured
graph (`res.1`) and the bound positional arguments (`res.2`); then `_export`
the graph on the bound arguments with the `None` entries dropped
(`tuple(arg for arg in bound_args if arg is not None)`, line 155). -/
def export_after_normalizing_args_and_kwargs {V G OG M DT B E : Type}
    (fw : Framework V G OG M DT B E) (fn : TraceTarget V)
    (args : List (Option V)) (kwargs : List (String × Option V))
    (use_binary_format : Bool) (opset_version : Nat) (op_level_debug : Bool) :
    Except E (ExportResult M B) := do
  let res ← fw.unpackKwargs_trace (wrapper fn) args kwargs
  _export fw res.1 (res.2.filter fun arg => arg.isSome)
    { opset_version := opset_version,
      use_binary_format := use_binary_format,
      op_level_debug := op_level_debug,
      decomposition_table := fw.onnx_friendly_decomposition_table }

/-- The pipeline as the spec words it, written independently of `export'` for
comparison: trace `fn` to an FX graph module, run Decompose on it with the
given decomposition table and args, run ShapeInferenceWithFakeTensor on the
decomposed module with args, run export_fx_to_onnxscript on the result, and
finally convert the onnxscript graph to an ONNX ModelProto at the requested
opset version — each step consuming the previous step's result. -/
def exportPipelineSpec {V G OG M DT B E : Type} (fw : Framework V G OG M DT B E)
    (fn : TraceTarget V) (args : List (Option V))
    (use_binary_format : Bool) (opset_version : Nat) (op_level_debug : Bool) :
    Except E M := do
  let g ← fw.dynamoExport_trace fn args
  let d ← fw.decompose_run g fw.onnx_friendly_decomposition_table args
  let s ← fw.shapeInferenceWithFakeTensor_run d args
  let og ← fw.export_fx_to_onnxscript s
    { opset_version := opset_version,
      use_binary_format := use_binary_format,
      op_level_debug := op_level_debug,
      decomposition_table := fw.onnx_friendly_decomposition_table }
  fw.to_model_proto og opset_version

/-- "One of the underlying passes of `_export` raises `e` (and every pass
before it succeeded)": Decompose fails with `e`, or it yields `d` and
ShapeInferenceWithFakeTensor fails with `e`, or that yields `si` and
export_fx_to_onnxscript fails with `e`, or that yields `og` and the ModelProto
conversion fails with `e`. -/
def underlyingPassError {V G OG M DT B E : Type} (fw : Framework V G OG M DT B E)
    (g : G) (args : List (Option V)) (opts : ExportOptions DT) (e : E) : Prop :=
  fw.decompose_run g opts.decomposition_table args = Except.error e
  ∨ ∃ d, fw.decompose_run g opts.decomposition_table args = Except.ok d
      ∧ (fw.shapeInferenceWithFakeTensor_run d args = Except.error e
         ∨ ∃ si, fw.shapeInferenceWithFakeTensor_run d args = Except.ok si
             ∧ (fw.export_fx_to_onnxscript si opts = Except.error e
                ∨ ∃ og, fw.export_fx_to_onnxscript si opts = Except.ok og
                    ∧ fw.to_model_proto og opts.opset_version = Except.error e))

/-- Python keyword-argument binding for a signature with keyword(-only)
parameters `keyword_params` and possibly a `**kwargs` catch-all: a call binds
exactly when every keyword it passes names a declared parameter, unless the
signature has `**kwargs`; an unbindable keyword raises `TypeError`. -/
def bindsKeywords (keyword_params : List String) (has_var_keyword : Bool)
    (call_keywords : List String) : Bool :=
  call_keywords.all fun k => keyword_params.contains k || has_var_keyword

/-- The keyword-only parameters of `export` (lines 68-74). -/
def exportKeywordParams : List String :=
  ["use_binary_format", "opset_version", "op_level_debug"]

/-- `export` declares no `**kwargs` (lines 68-74). -/
def exportHasVarKeyword : Bool := false

/-- `export` declares `*args` (line 70). -/
def exportHasVarPositional : Bool := true

/-- The keyword-only parameters of `export_after_normalizing_args_and_kwargs`
(lines 97-103). -/
def exportAfterNormalizingKeywordParams : List String :=
  ["use_binary_format", "opset_version", "op_level_debug"]

/-- `export_after_normalizing_args_and_kwargs` declares `**kwargs`
(line 103). -/
def exportAfterNormalizingHasVarKeyword : Bool := true

/-- `export_after_normalizing_args_and_kwargs` declares `*args` (line 99). -/
def exportAfterNormalizingHasVarPositional : Bool := true

/-- A concrete instantiation of the framework record, used to witness the
theorems about the exporter at specific inputs. -/
def trivFramework : Framework Nat Nat Nat Nat Nat Nat String :=
  { dynamoExport_trace := fun _ _ => Except.ok 0,
    unpackKwargs_trace := fun _ _ _ => Except.ok (0, [none, some 1]),
    decompose_run := fun g _ _ => Except.ok g,
    shapeInferenceWithFakeTensor_run := fun g _ => Except.ok g,
    export_fx_to_onnxscript := fun g _ => Except.ok g,
    to_model_proto := fun og v => Except.ok (og + v),
    serializeToString := fun m => m,
    onnx_friendly_decomposition_table := 0 }

end OnnxExporter

/-- C6: `patch_allreduce` and `patch_reduce_scatter` run their body on a state
in which the patched name is bound to the replacement collective, and on exit —
normal or exceptional alike (the exception outcome `(body s1).1` is arbitrary
and is passed through unchanged) — the patched name is rebound to the function
that was in place on entry. -/
theorem patch_contextmanagers_install_and_restore {F D E : Type}
    (new : F) (d : D) (body : FsdpHybridShard.PatchBody F D E)
    (s : FsdpHybridShard.DistState F D) :
    -- patch_allreduce: body sees the replacement, exit restores the original
    (FsdpHybridShard.patch_allreduce new body s
        = ((body { s with all_reduce := new }).1,
           { (body { s with all_reduce := new }).2 with all_reduce := s.all_reduce }))
    ∧ (FsdpHybridShard.patch_allreduce new body s).2.all_reduce = s.all_reduce
    -- patch_reduce_scatter: body sees the replacement, exit restores the original
    ∧ ((FsdpHybridShard.patch_reduce_scatter new d body s).1
        = (body { s with reduce_scatter_base := new,
                         currentFullPrecisionParamDtype := some d }).1)
    ∧ (FsdpHybridShard.patch_reduce_scatter new d body s).2.reduce_scatter_base
        = s.reduce_scatter_base := by
  refine ⟨rfl, rfl, rfl, rfl⟩

/-- C9: on exit from `patch_reduce_scatter` the module global
`_CURRENT_FULL_PRECISION_PARAM_DTYPE` is always `None`, never the value it held
on entry; in particular, for a nested use (an inner `patch_reduce_scatter`
running inside the body of an outer one), the state after the inner context
exits carries `none`, not the outer context's dtype `some d₁`. -/
theorem patch_reduce_scatter_clears_dtype {F D E : Type}
    (new₁ new₂ : F) (d₁ d₂ : D) (body : FsdpHybridShard.PatchBody F D E)
    (s : FsdpHybridShard.DistState F D) :
    -- unconditionally `None` on exit, whatever the entry value was
    (FsdpHybridShard.patch_reduce_scatter new₁ d₁ body s).2.currentFullPrecisionParamDtype
      = none
    -- nested use: `sOuter` is the state the outer context hands to its body;
    -- exiting the inner context there leaves `none`, not `some d₁`
    ∧ (let sOuter : FsdpHybridShard.DistState F D :=
        { s with reduce_scatter_base := new₁,
                 currentFullPrecisionParamDtype := some d₁ }
       (FsdpHybridShard.patch_reduce_scatter new₂ d₂ body sOuter).2.currentFullPrecisionParamDtype
        = none ∧ some d₁ ≠ (none : Option D)) := by
  exact ⟨rfl, rfl, by simp⟩

/-- C8: running `test_fsdp_hybrid_shard_basic_setup` (its GPU-dependent setup
succeeding) raises `NameError` at line 108 before any assertion executes: the
body references `FullyShardedDataParallel`, but the module imports that class
only under the name `FSDP` (line 14) and never binds `FullyShardedDataParallel`. -/
theorem test_basic_setup_raises_nameError :
    FsdpHybridShard.testFsdpHybridShardBasicSetup
      = Except.error (FsdpHybridShard.PyError.nameError "FullyShardedDataParallel")
    ∧ FsdpHybridShard.moduleBindings.contains "FSDP" = true
    ∧ FsdpHybridShard.moduleBindings.contains "FullyShardedDataParallel" = false := by
  refine ⟨rfl, rfl, rfl⟩

/-- Any member of `interNodeRanks` arises from a node index below `numNodes`. -/
theorem mem_interNodeRanks_iff (numNodes nodeSize r q : Nat) :
    q ∈ HybridTopology.interNodeRanks numNodes nodeSize r
      ↔ ∃ k, k < numNodes ∧ q = k * nodeSize + r % nodeSize := by
  simp [HybridTopology.interNodeRanks, List.mem_map, List.mem_range, eq_comm]

/-- C1: under hybrid sharding with `numNodes * nodeSize` workers, the
inter-node process group observed at rank `r` contains exactly the designated
peers of `r` (`_rank_not_in_group` is false precisely on peers, true on every
other rank), and in the two-worker single-node configuration of the test each
rank's inter-node group contains that rank itself and excludes the other. -/
theorem inter_node_pg_exactly_peers (numNodes nodeSize r q : Nat)
    (hs : 0 < nodeSize) :
    (HybridTopology.rankNotInGroup q
        (HybridTopology.interNodeRanks numNodes nodeSize r) = false
      ↔ HybridTopology.isInterNodePeer numNodes nodeSize r q)
    ∧ HybridTopology.rankNotInGroup 0 (HybridTopology.interNodeRanks 1 2 0) = false
    ∧ HybridTopology.rankNotInGroup 1 (HybridTopology.interNodeRanks 1 2 0) = true
    ∧ HybridTopology.rankNotInGroup 1 (HybridTopology.interNodeRanks 1 2 1) = false
    ∧ HybridTopology.rankNotInGroup 0 (HybridTopology.interNodeRanks 1 2 1) = true := by
  refine ⟨?_, by decide, by decide, by decide, by decide⟩
  have hmem : HybridTopology.rankNotInGroup q
      (HybridTopology.interNodeRanks numNodes nodeSize r) = false
      ↔ q ∈ HybridTopology.interNodeRanks numNodes nodeSize r := by
    simp [HybridTopology.rankNotInGroup]
  rw [hmem, mem_interNodeRanks_iff]
  constructor
  · rintro ⟨k, hk, rfl⟩
    have hrs : r % nodeSize < nodeSize := Nat.mod_lt r hs
    constructor
    · calc k * nodeSize + r % nodeSize < k * nodeSize + nodeSize := by omega
        _ = (k + 1) * nodeSize := by ring
        _ ≤ numNodes * nodeSize := Nat.mul_le_mul_right _ (by omega)
    · rw [Nat.add_comm, Nat.add_mul_mod_self_right, Nat.mod_eq_of_lt hrs]
  · rintro ⟨hq, hmod⟩
    refine ⟨q / nodeSize, ?_, ?_⟩
    · exact (Nat.div_lt_iff_lt_mul hs).mpr (by omega)
    · have h := Nat.div_add_mod q nodeSize
      rw [Nat.mul_comm] at h
      omega

/-- Witness for C1 at the test's configuration: one node of two workers,
rank 0 observing rank 1. -/
theorem inter_node_pg_exactly_peers_witness :
    0 < 2 ∧
    ((HybridTopology.rankNotInGroup 1
        (HybridTopology.interNodeRanks 1 2 0) = false
      ↔ HybridTopology.isInterNodePeer 1 2 0 1)
    ∧ HybridTopology.rankNotInGroup 0 (HybridTopology.interNodeRanks 1 2 0) = false
    ∧ HybridTopology.rankNotInGroup 1 (HybridTopology.interNodeRanks 1 2 0) = true
    ∧ HybridTopology.rankNotInGroup 1 (HybridTopology.interNodeRanks 1 2 1) = false
    ∧ HybridTopology.rankNotInGroup 0 (HybridTopology.interNodeRanks 1 2 1) = true) :=
  ⟨by decide, inter_node_pg_exactly_peers 1 2 0 1 (by decide)⟩

/-- The nested FSDP units reachable inside a `plain` wrapper node are exactly
those of its children. -/
theorem mem_fsdpStrategies_plain (cls : String) (cs : List FsdpWrap.WrappedModule)
    (s : FsdpWrap.ShardingStrategy) :
    s ∈ FsdpWrap.fsdpStrategies (FsdpWrap.WrappedModule.plain cls cs)
      ↔ ∃ c ∈ cs, s ∈ FsdpWrap.fsdpStrategies c := by
  rw [FsdpWrap.fsdpStrategies]
  simp

/-- Auto-wrapping only ever creates FSDP units carrying the strategy of the
`fsdp_kwargs` it was invoked with. -/
theorem wrapSubmodules_strategies (policy : String → Bool) (st : FsdpWrap.ShardingStrategy) :
    ∀ (n : Nat) (t : FsdpWrap.ModuleTree), sizeOf t ≤ n →
      ∀ s ∈ FsdpWrap.fsdpStrategies (FsdpWrap.wrapSubmodules policy st t), s = st := by
  intro n
  induction n with
  | zero =>
    intro t h
    cases t with
    | mk cls children => simp at h
  | succ n ih =>
    intro t h s hs
    cases t with
    | mk cls children =>
      have hsub : ∀ c ∈ children,
          ∀ s ∈ FsdpWrap.fsdpStrategies (FsdpWrap.wrapSubmodules policy st c), s = st := by
        intro c hc
        apply ih
        have h1 := List.sizeOf_lt_of_mem hc
        simp only [FsdpWrap.ModuleTree.mk.sizeOf_spec] at h
        omega
      simp only [FsdpWrap.wrapSubmodules] at hs
      by_cases hp : policy cls = true
      · rw [if_pos hp] at hs
        rw [FsdpWrap.fsdpStrategies] at hs
        rcases List.mem_cons.mp hs with h1 | h2
        · exact h1
        · rcases (mem_fsdpStrategies_plain _ _ _).mp h2 with ⟨w, hw, hsw⟩
          simp only [List.mem_map, List.mem_attach, true_and, Subtype.exists] at hw
          obtain ⟨c, hc, rfl⟩ := hw
          exact hsub c hc s hsw
      · rw [if_neg hp] at hs
        rcases (mem_fsdpStrategies_plain _ _ _).mp hs with ⟨w, hw, hsw⟩
        simp only [List.mem_map, List.mem_attach, true_and, Subtype.exists] at hw
        obtain ⟨c, hc, rfl⟩ := hw
        exact hsub c hc s hsw

/-- C7: wrapping a model with sharding_strategy HYBRID_SHARD and a transformer
auto-wrap policy yields a wrapped model in which every nested FSDP module's
sharding_strategy equals `ShardingStrategy.HYBRID_SHARD`. -/
theorem fsdp_hybrid_shard_propagates (policy : String → Bool) (t : FsdpWrap.ModuleTree)
    (s : FsdpWrap.ShardingStrategy)
    (hs : s ∈ FsdpWrap.fsdpStrategies
        (FsdpWrap.fsdpWrap policy FsdpWrap.ShardingStrategy.HYBRID_SHARD t)) :
    s = FsdpWrap.ShardingStrategy.HYBRID_SHARD := by
  cases t with
  | mk cls children =>
    rw [FsdpWrap.fsdpWrap] at hs
    rw [FsdpWrap.fsdpStrategies] at hs
    rcases List.mem_cons.mp hs with h1 | h2
    · exact h1
    · rcases (mem_fsdpStrategies_plain _ _ _).mp h2 with ⟨w, hw, hsw⟩
      simp only [List.mem_map, List.mem_attach, true_and, Subtype.exists] at hw
      obtain ⟨c, hc, rfl⟩ := hw
      exact wrapSubmodules_strategies policy _ (sizeOf c) c (Nat.le_refl _) s hsw

/-- Witness for C7 at a concrete model tree and policy. -/
theorem fsdp_hybrid_shard_propagates_witness :
    (FsdpWrap.ShardingStrategy.HYBRID_SHARD ∈ FsdpWrap.fsdpStrategies
        (FsdpWrap.fsdpWrap (fun _ => true) FsdpWrap.ShardingStrategy.HYBRID_SHARD
          (FsdpWrap.ModuleTree.mk "TransformerWithSharedParams" [])))
    ∧ FsdpWrap.ShardingStrategy.HYBRID_SHARD = FsdpWrap.ShardingStrategy.HYBRID_SHARD := by
  have hmem : FsdpWrap.ShardingStrategy.HYBRID_SHARD ∈ FsdpWrap.fsdpStrategies
      (FsdpWrap.fsdpWrap (fun _ => true) FsdpWrap.ShardingStrategy.HYBRID_SHARD
        (FsdpWrap.ModuleTree.mk "TransformerWithSharedParams" [])) := by
    simp [FsdpWrap.fsdpWrap, FsdpWrap.fsdpStrategies]
  exact ⟨hmem, fsdp_hybrid_shard_propagates (fun _ => true) _ _ hmem⟩

/-- `Except` bind on a success reduces to the continuation. -/
theorem except_bind_ok {E A C : Type} (a : A) (f : A → Except E C) :
    (Except.ok a : Except E A) >>= f = f a := rfl

/-- `Except` bind on an error short-circuits, propagating the error. -/
theorem except_bind_error {E A C : Type} (e : E) (f : A → Except E C) :
    (Except.error e : Except E A) >>= f = Except.error e := rfl

/-- `pure` into `Except` is `Except.ok`. -/
theorem except_pure_eq {E A : Type} (a : A) :
    (pure a : Except E A) = Except.ok a := rfl

/-- C2: `export` performs exactly the five framework steps in order — trace,
Decompose with the given table and args, ShapeInferenceWithFakeTensor with
args, export_fx_to_onnxscript, ModelProto conversion at the requested opset —
each consuming the previous step's result, and then renders that ModelProto
according to `use_binary_format` (the rendering is the subject of C3). -/
theorem export_sequences_passes {V G OG M DT B E : Type}
    (fw : OnnxExporter.Framework V G OG M DT B E) (fn : OnnxExporter.TraceTarget V)
    (args : List (Option V)) (ub : Bool) (ov : Nat) (old : Bool) :
    OnnxExporter.export' fw fn args ub ov old
      = (fun m => if ub then OnnxExporter.ExportResult.binary (fw.serializeToString m)
                  else OnnxExporter.ExportResult.proto m)
          <$> OnnxExporter.exportPipelineSpec fw fn args ub ov old := by
  cases ub <;>
    simp only [OnnxExporter.export', OnnxExporter.exportPipelineSpec, OnnxExporter._export,
      map_eq_pure_bind, bind_assoc, pure_bind, if_true, if_false, Bool.true_eq_false,
      Bool.false_eq_true, ite_false, ite_true]

/-- `_export` returns an error, or serialized bytes when `use_binary_format`
is set, or a ModelProto when it is not. -/
theorem _export_shape {V G OG M DT B E : Type} (fw : OnnxExporter.Framework V G OG M DT B E)
    (g : G) (args : List (Option V)) (opts : OnnxExporter.ExportOptions DT) :
    (∃ e, OnnxExporter._export fw g args opts = Except.error e)
    ∨ (opts.use_binary_format = true ∧ ∃ m, OnnxExporter._export fw g args opts
        = Except.ok (OnnxExporter.ExportResult.binary (fw.serializeToString m)))
    ∨ (opts.use_binary_format = false ∧ ∃ m, OnnxExporter._export fw g args opts
        = Except.ok (OnnxExporter.ExportResult.proto m)) := by
  unfold OnnxExporter._export
  rcases h1 : fw.decompose_run g opts.decomposition_table args with e1 | d
  · exact Or.inl ⟨e1, by rw [except_bind_error]⟩
  · rw [except_bind_ok]
    rcases h2 : fw.shapeInferenceWithFakeTensor_run d args with e2 | si
    · exact Or.inl ⟨e2, by rw [except_bind_error]⟩
    · rw [except_bind_ok]
      rcases h3 : fw.export_fx_to_onnxscript si opts with e3 | og
      · exact Or.inl ⟨e3, by rw [except_bind_error]⟩
      · rw [except_bind_ok]
        rcases h4 : fw.to_model_proto og opts.opset_version with e4 | m
        · exact Or.inl ⟨e4, by rw [except_bind_error]⟩
        · rw [except_bind_ok]
          cases hub : opts.use_binary_format
          · refine Or.inr (Or.inr ⟨rfl, m, ?_⟩)
            simp [except_pure_eq, except_bind_ok]
          · refine Or.inr (Or.inl ⟨rfl, m, ?_⟩)
            simp [except_pure_eq, except_bind_ok]

/-- C3: every successful call of `export` or
`export_after_normalizing_args_and_kwargs` returns the serialized bytes of the
ModelProto (`SerializeToString`) when `use_binary_format` is true and the
in-memory ModelProto when it is false; apart from raising, no other return
shape is possible. -/
theorem export_returns_binary_or_proto {V G OG M DT B E : Type}
    (fw : OnnxExporter.Framework V G OG M DT B E) (fn : OnnxExporter.TraceTarget V)
    (args : List (Option V)) (kwargs : List (String × Option V))
    (ub : Bool) (ov : Nat) (old : Bool) :
    ((∃ e, OnnxExporter.export' fw fn args ub ov old = Except.error e)
     ∨ (ub = true ∧ ∃ m, OnnxExporter.export' fw fn args ub ov old
          = Except.ok (OnnxExporter.ExportResult.binary (fw.serializeToString m)))
     ∨ (ub = false ∧ ∃ m, OnnxExporter.export' fw fn args ub ov old
          = Except.ok (OnnxExporter.ExportResult.proto m)))
    ∧ ((∃ e, OnnxExporter.export_after_normalizing_args_and_kwargs fw fn args kwargs ub ov old
          = Except.error e)
     ∨ (ub = true ∧ ∃ m,
          OnnxExporter.export_after_normalizing_args_and_kwargs fw fn args kwargs ub ov old
            = Except.ok (OnnxExporter.ExportResult.binary (fw.serializeToString m)))
     ∨ (ub = false ∧ ∃ m,
          OnnxExporter.export_after_normalizing_args_and_kwargs fw fn args kwargs ub ov old
            = Except.ok (OnnxExporter.ExportResult.proto m))) := by
  constructor
  · unfold OnnxExporter.export'
    rcases h : fw.dynamoExport_trace fn args with e1 | g
    · exact Or.inl ⟨e1, by rw [except_bind_error]⟩
    · rw [except_bind_ok]
      exact _export_shape fw g args _
  · unfold OnnxExporter.export_after_normalizing_args_and_kwargs
    rcases h : fw.unpackKwargs_trace (OnnxExporter.wrapper fn) args kwargs with e1 | pr
    · exact Or.inl ⟨e1, by rw [except_bind_error]⟩
    · rw [except_bind_ok]
      exact _export_shape fw pr.1 _ _

/-- `_export` raises `e` exactly when its first failing pass raises `e`. -/
theorem _export_error_iff {V G OG M DT B E : Type}
    (fw : OnnxExporter.Framework V G OG M DT B E)
    (g : G) (args : List (Option V)) (opts : OnnxExporter.ExportOptions DT) (e : E) :
    OnnxExporter._export fw g args opts = Except.error e
      ↔ OnnxExporter.underlyingPassError fw g args opts e := by
  unfold OnnxExporter._export OnnxExporter.underlyingPassError
  rcases h1 : fw.decompose_run g opts.decomposition_table args with e1 | d
  · simp [except_bind_error]
  · rw [except_bind_ok]
    simp only [Except.ok.injEq, reduceCtorEq, false_or, exists_eq_left']
    rcases h2 : fw.shapeInferenceWithFakeTensor_run d args with e2 | si
    · simp [except_bind_error]
    · rw [except_bind_ok]
      simp only [Except.ok.injEq, reduceCtorEq, false_or, exists_eq_left']
      rcases h3 : fw.export_fx_to_onnxscript si opts with e3 | og
      · simp [except_bind_error]
      · rw [except_bind_ok]
        simp only [Except.ok.injEq, reduceCtorEq, false_or, exists_eq_left']
        rcases h4 : fw.to_model_proto og opts.opset_version with e4 | m
        · simp [except_bind_error]
        · rw [except_bind_ok]
          simp only [reduceCtorEq, iff_false]
          cases opts.use_binary_format <;> simp [except_pure_eq, except_bind_ok]

/-- C5: the exporter adds no error handling of its own — `export` (resp.
`export_after_normalizing_args_and_kwargs`) raises `e` precisely when its
tracing frontend raises `e`, or tracing succeeds and the first failing of
Decompose, ShapeInferenceWithFakeTensor, export_fx_to_onnxscript, and the
ModelProto conversion raises `e`; the exception is propagated unchanged. -/
theorem export_raises_iff_pass_raises {V G OG M DT B E : Type}
    (fw : OnnxExporter.Framework V G OG M DT B E) (fn : OnnxExporter.TraceTarget V)
    (args : List (Option V)) (kwargs : List (String × Option V))
    (ub : Bool) (ov : Nat) (old : Bool) (e : E) :
    (OnnxExporter.export' fw fn args ub ov old = Except.error e ↔
      fw.dynamoExport_trace fn args = Except.error e
      ∨ ∃ g, fw.dynamoExport_trace fn args = Except.ok g
          ∧ OnnxExporter.underlyingPassError fw g args
              ⟨ov, ub, old, fw.onnx_friendly_decomposition_table⟩ e)
    ∧ (OnnxExporter.export_after_normalizing_args_and_kwargs fw fn args kwargs ub ov old
        = Except.error e ↔
      fw.unpackKwargs_trace (OnnxExporter.wrapper fn) args kwargs = Except.error e
      ∨ ∃ g bound_args, fw.unpackKwargs_trace (OnnxExporter.wrapper fn) args kwargs
            = Except.ok (g, bound_args)
          ∧ OnnxExporter.underlyingPassError fw g
              (bound_args.filter fun arg => arg.isSome)
              ⟨ov, ub, old, fw.onnx_friendly_decomposition_table⟩ e) := by
  constructor
  · unfold OnnxExporter.export'
    rcases h : fw.dynamoExport_trace fn args with e1 | g
    · simp [except_bind_error]
    · rw [except_bind_ok]
      simp only [Except.ok.injEq, reduceCtorEq, false_or, exists_eq_left']
      exact _export_error_iff fw g args _ e
  · unfold OnnxExporter.export_after_normalizing_args_and_kwargs
    rcases h : fw.unpackKwargs_trace (OnnxExporter.wrapper fn) args kwargs with e1 | pr
    · simp [except_bind_error]
    · rw [except_bind_ok]
      obtain ⟨g, bound_args⟩ := pr
      simp only [Except.ok.injEq, Prod.mk.injEq, reduceCtorEq, false_or]
      constructor
      · intro hx
        exact ⟨g, bound_args, ⟨rfl, rfl⟩, (_export_error_iff fw g _ _ e).mp hx⟩
      · rintro ⟨g2, b2, ⟨hg, hb⟩, hx⟩
        subst hg; subst hb
        exact (_export_error_iff fw g _ _ e).mpr hx

/-- C4 counterexample: a call that passes a model keyword argument (here
`src_mask`) does not bind against `export`'s signature — Python raises
`TypeError` — whereas the same call binds against
`export_after_normalizing_args_and_kwargs`, which has `**kwargs`.  So it is
false that both entry points accept example keyword arguments for the model. -/
theorem export_rejects_model_kwargs :
    OnnxExporter.bindsKeywords OnnxExporter.exportKeywordParams
      OnnxExporter.exportHasVarKeyword ["src_mask"] = false
    ∧ OnnxExporter.bindsKeywords OnnxExporter.exportAfterNormalizingKeywordParams
      OnnxExporter.exportAfterNormalizingHasVarKeyword ["src_mask"] = true := by
  decide

/-- C4 (amended): both entry points accept a module-or-callable plus any
number of example positional arguments (`*args`) and the three export options
as keyword arguments; `export_after_normalizing_args_and_kwargs` additionally
accepts arbitrary example keyword arguments for the model (`**kwargs`), while
`export` rejects every keyword argument that is not one of the three
options. -/
theorem export_entry_points_signatures (ks extra : List String)
    (h : ∀ k ∈ ks, k ∈ OnnxExporter.exportKeywordParams) :
    OnnxExporter.exportHasVarPositional = true
    ∧ OnnxExporter.exportAfterNormalizingHasVarPositional = true
    ∧ OnnxExporter.bindsKeywords OnnxExporter.exportKeywordParams
        OnnxExporter.exportHasVarKeyword ks = true
    ∧ OnnxExporter.bindsKeywords OnnxExporter.exportAfterNormalizingKeywordParams
        OnnxExporter.exportAfterNormalizingHasVarKeyword (ks ++ extra) = true
    ∧ ∀ k, k ∉ OnnxExporter.exportKeywordParams →
        OnnxExporter.bindsKeywords OnnxExporter.exportKeywordParams
          OnnxExporter.exportHasVarKeyword [k] = false := by
  refine ⟨rfl, rfl, ?_, ?_, ?_⟩
  · simp only [OnnxExporter.bindsKeywords, OnnxExporter.exportHasVarKeyword,
      Bool.or_false, List.all_eq_true]
    intro k hk
    simpa using h k hk
  · simp [OnnxExporter.bindsKeywords, OnnxExporter.exportAfterNormalizingHasVarKeyword]
  · intro k hk
    simp only [OnnxExporter.bindsKeywords, OnnxExporter.exportHasVarKeyword,
      Bool.or_false, List.all_eq_true]
    simp [hk]

/-- Witness for C4 at a concrete call: keywords `opset_version` and
`use_binary_format` plus the model keyword `src_mask`. -/
theorem export_entry_points_signatures_witness :
    OnnxExporter.exportHasVarPositional = true
    ∧ OnnxExporter.exportAfterNormalizingHasVarPositional = true
    ∧ OnnxExporter.bindsKeywords OnnxExporter.exportKeywordParams
        OnnxExporter.exportHasVarKeyword ["opset_version", "use_binary_format"] = true
    ∧ OnnxExporter.bindsKeywords OnnxExporter.exportAfterNormalizingKeywordParams
        OnnxExporter.exportAfterNormalizingHasVarKeyword
        (["opset_version", "use_binary_format"] ++ ["src_mask"]) = true
    ∧ ∀ k, k ∉ OnnxExporter.exportKeywordParams →
        OnnxExporter.bindsKeywords OnnxExporter.exportKeywordParams
          OnnxExporter.exportHasVarKeyword [k] = false :=
  export_entry_points_signatures ["opset_version", "use_binary_format"] ["src_mask"]
    (by decide)

/-- The leaves component of `tree_flatten` is exactly `treeLeaves`. -/
theorem tree_flatten_fst {V : Type} :
    ∀ (n : Nat) (t : OnnxExporter.PyTree V), sizeOf t ≤ n →
      (OnnxExporter.tree_flatten t).1 = OnnxExporter.treeLeaves t := by
  intro n
  induction n with
  | zero =>
    intro t h
    cases t with
    | leaf v => simp at h
    | node cs => simp at h
  | succ n ih =>
    intro t h
    cases t with
    | leaf v => rw [OnnxExporter.tree_flatten, OnnxExporter.treeLeaves]
    | node cs =>
      rw [OnnxExporter.tree_flatten, OnnxExporter.treeLeaves]
      simp only [List.map_map]
      congr 1
      apply List.map_congr_left
      intro a _
      show (OnnxExporter.tree_flatten a.1).1 = OnnxExporter.treeLeaves a.1
      apply ih
      have h1 := List.sizeOf_lt_of_mem a.2
      simp only [OnnxExporter.PyTree.node.sizeOf_spec] at h
      omega

/-- C10: the wrapper traced by `export_after_normalizing_args_and_kwargs`
returns the pytree-flattened list of leaves of `fn`'s output (the output
structure is discarded); membership in the normalized argument tuple is
membership in `bound_args` minus the `None` entries; and when tracing yields
`(g, bound_args)`, the pipeline is invoked on exactly that filtered tuple. -/
theorem eanak_wrapper_and_arg_normalization {V G OG M DT B E : Type}
    (fw : OnnxExporter.Framework V G OG M DT B E) (fn : OnnxExporter.TraceTarget V)
    (args : List (Option V)) (kwargs : List (String × Option V))
    (x : Option V) (bound_args : List (Option V)) (g : G)
    (ub : Bool) (ov : Nat) (old : Bool) :
    (OnnxExporter.wrapper fn args kwargs
      = OnnxExporter.treeLeaves (OnnxExporter.fn_call fn args kwargs))
    ∧ (x ∈ bound_args.filter (fun arg => arg.isSome) ↔ (x ∈ bound_args ∧ x ≠ none))
    ∧ (fw.unpackKwargs_trace (OnnxExporter.wrapper fn) args kwargs
          = Except.ok (g, bound_args) →
        OnnxExporter.export_after_normalizing_args_and_kwargs fw fn args kwargs ub ov old
          = OnnxExporter._export fw g (bound_args.filter fun arg => arg.isSome)
              ⟨ov, ub, old, fw.onnx_friendly_decomposition_table⟩) := by
  refine ⟨?_, ?_, ?_⟩
  · exact tree_flatten_fst (sizeOf (OnnxExporter.fn_call fn args kwargs)) _ (Nat.le_refl _)
  · simp [List.mem_filter, Option.isSome_iff_ne_none]
  · intro h
    unfold OnnxExporter.export_after_normalizing_args_and_kwargs
    rw [h, except_bind_ok]

/-- Witness for C10 at a concrete callable, argument lists and framework. -/
theorem eanak_wrapper_and_arg_normalization_witness :
    (OnnxExporter.wrapper (OnnxExporter.TraceTarget.callable
        (fun _ _ => OnnxExporter.PyTree.leaf 7)) [] []
      = OnnxExporter.treeLeaves (OnnxExporter.fn_call
          (OnnxExporter.TraceTarget.callable (fun _ _ => OnnxExporter.PyTree.leaf 7)) [] []))
    ∧ ((some 1 : Option Nat) ∈ [none, some 1].filter (fun arg => arg.isSome)
        ↔ ((some 1 : Option Nat) ∈ [none, some 1] ∧ (some 1 : Option Nat) ≠ none))
    ∧ (OnnxExporter.export_after_normalizing_args_and_kwargs OnnxExporter.trivFramework
          (OnnxExporter.TraceTarget.callable (fun _ _ => OnnxExporter.PyTree.leaf 7))
          [] [] true 14 false
        = OnnxExporter._export OnnxExporter.trivFramework 0
            ([none, some 1].filter fun arg => arg.isSome)
            ⟨14, true, false,
             OnnxExporter.trivFramework.onnx_friendly_decomposition_table⟩) := by
  have h := eanak_wrapper_and_arg_normalization OnnxExporter.trivFramework
    (OnnxExporter.TraceTarget.callable (fun _ _ => OnnxExporter.PyTree.leaf 7))
    [] [] (some 1) [none, some 1] 0 true 14 false
  exact ⟨h.1, h.2.1, h.2.2 rfl⟩
